import Mathlib

/-!
Verification of the AniWeek pipeline (main.go): query construction,
organizing airing records into UTC day buckets, and rendering the report.

Modelling conventions.
Machine integers are modelled as `Int`; instants are epoch seconds (UTC),
exactly the representation the program receives in `airingAt` and feeds to
`time.Unix`.  The Go standard time package is an external library for this
repository and is modelled at the epoch level: on a UTC instant `t`,
`time.Date(t.Year(), t.Month(), t.Day(), 0, 0, 0, 0, time.UTC)` is the
instant with the same UTC calendar date and the time of day zeroed, i.e.
`86400 * (t.fdiv 86400)` because UTC days are uniformly 86400 epoch
seconds; likewise `t.AddDate(0, 0, n)` shifts the UTC calendar day by `n`
while keeping the time of day, i.e. it adds `n * 86400` epoch seconds.
The civil (year, month, day) decomposition used only for display text is
modelled by `civilFromDays`, the standard proleptic-Gregorian conversion
the time package performs.  Terminal styling (lipgloss) is an external
text-styling collaborator whose `Render` wrappers decorate content with
colors and padding; they are modelled as identity on content, so rendered
text is the styled content itself.
-/

/-! ## Data model (struct declarations of main.go) -/

/-- The nested `title` object of a decoded airing record. -/
structure MediaTitle where
  romaji : String
  english : String
deriving DecidableEq

/-- The nested `media` object of a decoded airing record. -/
structure Media where
  title : MediaTitle
  averageScore : Int
deriving DecidableEq

/-- One decoded airing record (`AiringSchedule` in main.go). -/
structure AiringSchedule where
  episode : Int
  airingAt : Int
  media : Media
deriving DecidableEq

/-- The decoded `Page` object of a response. -/
structure Page where
  airingSchedules : List AiringSchedule
deriving DecidableEq

/-- The decoded `data` object of a response. -/
structure ResponseData where
  page : Page
deriving DecidableEq

/-- A decoded GraphQL response (`GraphQLResponse` in main.go). -/
structure GraphQLResponse where
  data : ResponseData
deriving DecidableEq

/-- Normalized per-show projection (`ShowInfo` in main.go).  `AiringTime`
is the UTC instant `time.Unix(airingAt, 0).UTC()` as epoch seconds. -/
structure ShowInfo where
  Title : String
  EpisodeNumber : Int
  AverageScore : Int
  AiringTime : Int
deriving DecidableEq

/-! ## Time model (external Go time package) -/

/-- Civil date (year, month, day) of an epoch day number, proleptic
Gregorian calendar, as the Go time package reports `Year()`, `Month()`
and `Day()` of a UTC instant.  Used by the renderer for header text. -/
def civilFromDays (z0 : Int) : Int × Int × Int :=
  let z := z0 + 719468
  let era := Int.fdiv z 146097
  let doe := z - 146097 * era
  let yoe := Int.fdiv (doe - Int.fdiv doe 1460 + Int.fdiv doe 36524 - Int.fdiv doe 146096) 365
  let y := yoe + 400 * era
  let doy := doe - (365 * yoe + Int.fdiv yoe 4 - Int.fdiv yoe 100)
  let mp := Int.fdiv (5 * doy + 2) 153
  let d := doy - Int.fdiv (153 * mp + 2) 5 + 1
  let m := if mp < 10 then mp + 3 else mp - 9
  (if m ≤ 2 then y + 1 else y, m, d)

/-- Sanity check of the civil conversion: epoch day 19844 is
2024-05-01. -/
example : civilFromDays 19844 = (2024, 5, 1) := by decide

/-- Sanity check of the civil conversion: epoch day 0 is 1970-01-01. -/
example : civilFromDays 0 = (1970, 1, 1) := by decide

/-- Sanity check of the civil conversion: epoch day 19789 is
2024-03-07 (after a leap day). -/
example : civilFromDays 19789 = (2024, 3, 7) := by decide

/-- Day-bucket key of a UTC instant (line 171 of main.go):
`time.Date(airTime.Year(), airTime.Month(), airTime.Day(), 0, 0, 0, 0,
time.UTC)`, the instant with the same UTC calendar date and the time of
day zeroed, i.e. the start of the UTC day containing `t`. -/
def dayKeyOf (t : Int) : Int :=
  86400 * Int.fdiv t 86400

/-- Models `time.Time.AddDate(0, 0, n)` on a UTC instant: shift the UTC
calendar day by `n`, keeping the time of day, which on the uniform UTC
epoch scale adds `n * 86400` seconds. -/
def addDateDays (t : Int) (n : Int) : Int :=
  t + n * 86400

/-! ## Organizer (organizeShowsByDay, lines 162-183 of main.go) -/

/-- Title resolution and projection of one record into a `ShowInfo`
(lines 166-180 of main.go): prefer the English title, falling back to
the Romaji title when the English one is empty. -/
def toShowInfo (schedule : AiringSchedule) : ShowInfo :=
  let title := if schedule.media.title.english = "" then schedule.media.title.romaji
    else schedule.media.title.english
  { Title := title
    EpisodeNumber := schedule.episode
    AverageScore := schedule.media.averageScore
    AiringTime := schedule.airingAt }

/-- The `map[time.Time][]ShowInfo` of main.go, as an association list
with pairwise distinct keys (insertion creates a bucket on first use). -/
abbrev DayMap := List (Int × List ShowInfo)

/-- Keys of a day map. -/
def dayMapKeys (m : DayMap) : List Int :=
  m.map Prod.fst

/-- Bucket of a key: the Go map read `showsByDay[dayKey]`, which is the
empty slice when the key is absent. -/
def dayMapGet (m : DayMap) (k : Int) : List ShowInfo :=
  match m with
  | [] => []
  | (k2, vs) :: rest => if k = k2 then vs else dayMapGet rest k

/-- The Go map write `showsByDay[dayKey] = append(showsByDay[dayKey], v)`:
append to the existing bucket, or create the bucket on first use. -/
def dayMapAppend (m : DayMap) (k : Int) (v : ShowInfo) : DayMap :=
  match m with
  | [] => [(k, [v])]
  | (k2, vs) :: rest =>
      if k2 = k then (k2, vs ++ [v]) :: rest else (k2, vs) :: dayMapAppend rest k v

/-- One iteration of the loop of `organizeShowsByDay`. -/
def organizeStep (m : DayMap) (schedule : AiringSchedule) : DayMap :=
  dayMapAppend m (dayKeyOf schedule.airingAt) (toShowInfo schedule)

/-- `organizeShowsByDay` (lines 162-183 of main.go): fold the loop body
over the decoded schedules, starting from the empty map. -/
def organizeShowsByDay (schedules : List AiringSchedule) : DayMap :=
  schedules.foldl organizeStep []

/-! ## Renderer (renderOutput and renderScore, lines 185-243 of main.go) -/

/-- Full weekday name of a weekday index with 0 = Sunday, as the Go
format verb `Monday` prints it. -/
def weekdayName (wd : Int) : String :=
  if wd = 0 then "Sunday"
  else if wd = 1 then "Monday"
  else if wd = 2 then "Tuesday"
  else if wd = 3 then "Wednesday"
  else if wd = 4 then "Thursday"
  else if wd = 5 then "Friday"
  else "Saturday"

/-- Abbreviated month name, as the Go format verb `Jan` prints it. -/
def monthName (m : Int) : String :=
  if m = 1 then "Jan"
  else if m = 2 then "Feb"
  else if m = 3 then "Mar"
  else if m = 4 then "Apr"
  else if m = 5 then "May"
  else if m = 6 then "Jun"
  else if m = 7 then "Jul"
  else if m = 8 then "Aug"
  else if m = 9 then "Sep"
  else if m = 10 then "Oct"
  else if m = 11 then "Nov"
  else "Dec"

/-- Two-digit zero padding, as the Go format verb `02` prints a day of
month or a minute. -/
def pad2 (n : Int) : String :=
  if n < 10 then "0" ++ toString n else toString n

/-- Models `day.Format("Monday (Jan 02)")` on a UTC instant: full
weekday name, then the abbreviated month and zero-padded day of month in
parentheses.  Epoch day 0 (1970-01-01) was a Thursday. -/
def formatDayDate (t : Int) : String :=
  let day := Int.fdiv t 86400
  let c := civilFromDays day
  weekdayName (Int.emod (day + 4) 7) ++ " (" ++ monthName c.2.1 ++ " " ++ pad2 c.2.2 ++ ")"

/-- Models `airingTime.Format("3:04 PM")` on a UTC instant: 12-hour
clock hour without padding, zero-padded minute, and AM or PM. -/
def formatClock12 (t : Int) : String :=
  let tod := Int.emod t 86400
  let hour := Int.fdiv tod 3600
  let minute := Int.fdiv (Int.emod tod 3600) 60
  let h12 := if Int.emod hour 12 = 0 then 12 else Int.emod hour 12
  toString h12 ++ ":" ++ pad2 minute ++ (if hour < 12 then " AM" else " PM")

/-- Status marker of a rendered show line (lines 210-215 of main.go):
default sparkles, upgraded when the average score exceeds 75, and the
antenna marker when the score is exactly zero. -/
def emojiFor (score : Int) : String :=
  if score > 75 then "🌟" else if score = 0 then "📡" else "✨"

/-- `renderScore` (lines 238-243 of main.go).  The Go code prints
`fmt.Sprintf("★ %.0f/100", float32(score))` on the positive branch;
`float32` is exact on every magnitude below 2 to the 24th, so on this
branch the verb prints the decimal digits of `score` itself, modelled by
`toString`. -/
def renderScore (score : Int) : String :=
  if score > 0 then "★ " ++ toString score ++ "/100" else "★ No rating"

/-- One rendered show entry (lines 217-225 of main.go): status marker,
resolved title, separator dot, episode number, 12-hour airing time, and
the score suffix. -/
def renderShowLine (info : ShowInfo) : String :=
  emojiFor info.AverageScore ++ " " ++ info.Title ++ " • " ++
    "Ep " ++ toString info.EpisodeNumber ++
    " 🕒 " ++ formatClock12 info.AiringTime ++
    renderScore info.AverageScore

/-- Descending insertion of a day key. -/
def insertDayDesc (x : Int) : List Int → List Int
  | [] => [x]
  | y :: ys => if x > y then x :: y :: ys else y :: insertDayDesc x ys

/-- Models the `sort.Slice(days, days[i].After(days[j]))` call of
lines 194-196 of main.go: reorder the extracted keys into reverse
chronological (descending) order. -/
def sortDaysDesc (l : List Int) : List Int :=
  l.foldr insertDayDesc []

/-- One day block of the report: the day key, its header text, and the
rendered lines of its shows in bucket order. -/
structure DaySection where
  day : Int
  header : String
  showLines : List String
deriving DecidableEq

/-- The divider printed under each day header. -/
def dividerText : String :=
  "╌╌╌╌╌╌╌╌╌╌╌╌╌╌╌╌╌╌╌╌╌╌╌╌╌╌╌"

/-- The day block emitted for one sorted key (lines 200-226 of main.go):
header from the day key, then one line per show of that bucket, in the
existing bucket order. -/
def renderDaySection (m : DayMap) (day : Int) : DaySection :=
  { day := day
    header := "📺 " ++ formatDayDate day
    showLines := (dayMapGet m day).map renderShowLine }

/-- The sequence of day blocks of a report: one per key, most recent day
first. -/
def renderSections (m : DayMap) : List DaySection :=
  (sortDaysDesc (dayMapKeys m)).map (renderDaySection m)

/-- Text of one day block: header line, divider line, then one line per
show. -/
def sectionText (s : DaySection) : String :=
  s.header ++ "\n" ++ dividerText ++ "\n" ++ String.join (s.showLines.map (fun line => line ++ "\n"))

/-- Model of `appStyle.Render`: the outer decorative container is
external styling, identity on content. -/
def appRender (s : String) : String :=
  s

/-- `renderOutput` (lines 185-236 of main.go): day blocks joined with a
blank separator line between consecutive days (each block already ends
in a newline), wrapped in the outer container. -/
def renderOutput (m : DayMap) : String :=
  appRender (String.intercalate "\n" ((renderSections m).map sectionText))

/-! ## Query builder (lines 107-126 of main.go) -/

/-- The query template up to the first interpolated bound. -/
def qPart1 : String :=
  "\n\t\x7b\n\t\tPage(perPage: 100) \x7b\n\t\t\tairingSchedules(airingAt_greater: "

/-- The query template between the two interpolated bounds. -/
def qPart2 : String :=
  ", airingAt_lesser: "

/-- The query template after the second interpolated bound. -/
def qPart3 : String :=
  ", sort: TIME_DESC) \x7b\n\t\t\t\tepisode\n\t\t\t\tairingAt\n\t\t\t\tmedia \x7b\n\t\t\t\t\ttitle \x7b\n\t\t\t\t\t\tromaji\n\t\t\t\t\t\tenglish\n\t\t\t\t\t\x7d\n\t\t\t\t\taverageScore\n\t\t\t\t\x7d\n\t\t\t\x7d\n\t\t\x7d\n\t\x7d\n\t"

/-- The query string built by main (lines 107-126 of main.go):
`fmt.Sprintf` of the raw template with `sevenDaysAgo.Unix()` and
`now.Unix()`, where `sevenDaysAgo := now.AddDate(0, 0, -7)`. -/
def buildQuery (nowUnix : Int) : String :=
  qPart1 ++ toString (addDateDays nowUnix (-7)) ++ qPart2 ++ toString nowUnix ++ qPart3

/-- Character-list test: the second list is a prefix of the first. -/
def charsStartWith : List Char → List Char → Bool
  | _, [] => true
  | [], _ :: _ => false
  | c :: cs, p :: ps => c == p && charsStartWith cs ps

/-- Character-list test: the pattern occurs contiguously somewhere. -/
def charsContain (s pat : List Char) : Bool :=
  match s with
  | [] => charsStartWith [] pat
  | _ :: rest => charsStartWith s pat || charsContain rest pat

/-- Substring test on strings, used to state facts about the fixed parts
of the query text. -/
def containsSubstr (s pat : String) : Bool :=
  charsContain s.data pat.data

/-! ## Driver (main, lines 106-159, and printError, lines 245-251) -/

/-- The outcome of the effectful prefix of main: each of the four
fallible steps (request serialization, HTTP POST, body read, JSON
decode) either fails with an underlying cause or the pipeline reaches a
decoded response. -/
inductive FetchOutcome where
  | marshalFailure (cause : String)
  | transportFailure (cause : String)
  | readFailure (cause : String)
  | decodeFailure (cause : String)
  | ok (response : GraphQLResponse)
deriving DecidableEq

/-- Whether an outcome is one of the four error categories. -/
def isErrorOutcome : FetchOutcome → Bool
  | .ok _ => false
  | _ => true

/-- `printError` (lines 245-251 of main.go): the printed text is
`fmt.Sprintf("%s: %v", context, err)` under external styling. -/
def printErrorText (context cause : String) : String :=
  context ++ ": " ++ cause

/-- What a run of main prints: an error report, the fixed no-episodes
message, or a rendered report. -/
inductive RunResult where
  | errorReport (message : String)
  | noEpisodes (message : String)
  | report (text : String)
deriving DecidableEq

/-- The fixed message printed when no episodes aired. -/
def noEpisodesMessage : String :=
  "✨ No new episodes aired in the past week ✨"

/-- The decision part of main (lines 128-158 of main.go): each fallible
step returns early with its context label and cause; otherwise the
decoded schedules are organized, and an empty map prints the fixed
message while a non-empty one is rendered. -/
def runAniweek (outcome : FetchOutcome) : RunResult :=
  match outcome with
  | .marshalFailure cause => .errorReport (printErrorText "Error creating request" cause)
  | .transportFailure cause => .errorReport (printErrorText "Error making request" cause)
  | .readFailure cause => .errorReport (printErrorText "Error reading response" cause)
  | .decodeFailure cause => .errorReport (printErrorText "Error parsing response" cause)
  | .ok response =>
      let showsByDay := organizeShowsByDay response.data.page.airingSchedules
      if showsByDay.length = 0 then .noEpisodes (appRender noEpisodesMessage)
      else .report (renderOutput showsByDay)

/-! ## Day-map lemmas -/

/-- Reading back after a map write: the written key gains the appended
element at the end of its bucket, every other key is unchanged. -/
theorem dayMapGet_append (m : DayMap) (k k2 : Int) (v : ShowInfo) :
    dayMapGet (dayMapAppend m k v) k2
      = if k2 = k then dayMapGet m k2 ++ [v] else dayMapGet m k2 := by
  induction m with
  | nil =>
      by_cases h : k2 = k <;> simp [dayMapAppend, dayMapGet, h]
  | cons p rest ih =>
      obtain ⟨k3, vs⟩ := p
      by_cases h3 : k3 = k
      · subst h3
        by_cases h2 : k2 = k3 <;> simp [dayMapAppend, dayMapGet, h2]
      · by_cases h2 : k2 = k3
        · subst h2
          simp [dayMapAppend, dayMapGet, h3, if_neg (Ne.symm h3)]
        · simp [dayMapAppend, dayMapGet, h3, h2, ih]

/-- A map write extends the key list exactly when the key is new. -/
theorem dayMapKeys_append (m : DayMap) (k : Int) (v : ShowInfo) :
    dayMapKeys (dayMapAppend m k v)
      = if k ∈ dayMapKeys m then dayMapKeys m else dayMapKeys m ++ [k] := by
  induction m with
  | nil => simp [dayMapAppend, dayMapKeys]
  | cons p rest ih =>
      obtain ⟨k3, vs⟩ := p
      by_cases h3 : k3 = k
      · subst h3
        simp [dayMapAppend, dayMapKeys]
      · simp only [dayMapKeys, List.map] at ih ⊢
        by_cases hmem : k ∈ List.map Prod.fst rest
        · simp [dayMapAppend, h3, ih, hmem, List.mem_cons, Ne.symm h3]
        · simp [dayMapAppend, h3, ih, hmem, List.mem_cons, Ne.symm h3]

/-- Key membership after a map write. -/
theorem mem_dayMapKeys_append (m : DayMap) (k k2 : Int) (v : ShowInfo) :
    k2 ∈ dayMapKeys (dayMapAppend m k v) ↔ k2 ∈ dayMapKeys m ∨ k2 = k := by
  rw [dayMapKeys_append]
  by_cases hmem : k ∈ dayMapKeys m
  · simp only [if_pos hmem]
    constructor
    · exact fun h => Or.inl h
    · rintro (h | rfl)
      · exact h
      · exact hmem
  · simp [if_neg hmem]

/-- Map writes preserve distinctness of the key list. -/
theorem nodup_dayMapKeys_append (m : DayMap) (k : Int) (v : ShowInfo)
    (h : (dayMapKeys m).Nodup) : (dayMapKeys (dayMapAppend m k v)).Nodup := by
  rw [dayMapKeys_append]
  by_cases hmem : k ∈ dayMapKeys m
  · simpa [hmem] using h
  · simp only [if_neg hmem]
    simp [List.nodup_append, h, hmem]

/-- With distinct keys, a pair of the association list is read back by
`dayMapGet` at its own key. -/
theorem dayMapGet_of_mem (m : DayMap) (k : Int) (vs : List ShowInfo)
    (hnd : (dayMapKeys m).Nodup) (hmem : (k, vs) ∈ m) : dayMapGet m k = vs := by
  induction m with
  | nil => cases hmem
  | cons p rest ih =>
      obtain ⟨k3, vs3⟩ := p
      rcases List.mem_cons.1 hmem with heq | htail
      · cases heq
        simp [dayMapGet]
      · have hk : k ∈ dayMapKeys rest := by
          simpa [dayMapKeys] using List.mem_map_of_mem Prod.fst htail
        have hne : k ≠ k3 := by
          rintro rfl
          exact (List.nodup_cons.1 (by simpa [dayMapKeys] using hnd)).1 hk
        simp only [dayMapGet, if_neg hne]
        exact ih (List.nodup_cons.1 (by simpa [dayMapKeys] using hnd)).2 htail

/-- With distinct keys, two pairs of the association list with the same
key are the same pair. -/
theorem dayMap_pair_eq_of_key_eq (m : DayMap) (p q : Int × List ShowInfo)
    (hnd : (dayMapKeys m).Nodup) (hp : p ∈ m) (hq : q ∈ m) (hk : p.1 = q.1) : p = q := by
  induction m with
  | nil => cases hp
  | cons hd rest ih =>
      have hnd2 : (dayMapKeys rest).Nodup :=
        (List.nodup_cons.1 (by simpa [dayMapKeys] using hnd)).2
      have hhd : hd.1 ∉ dayMapKeys rest :=
        (List.nodup_cons.1 (by simpa [dayMapKeys] using hnd)).1
      rcases List.mem_cons.1 hp with rfl | hp2
      · rcases List.mem_cons.1 hq with rfl | hq2
        · rfl
        · exact absurd (hk ▸ List.mem_map_of_mem Prod.fst hq2) hhd
      · rcases List.mem_cons.1 hq with rfl | hq2
        · exact absurd (hk ▸ List.mem_map_of_mem Prod.fst hp2) hhd
        · exact ih hnd2 hp2 hq2

/-- Total number of shows held by a day map. -/
def totalShows (m : DayMap) : Int :=
  (m.map fun p => (p.2.length : Int)).sum

/-- Each map write grows the total number of held shows by one. -/
theorem totalShows_append (m : DayMap) (k : Int) (v : ShowInfo) :
    totalShows (dayMapAppend m k v) = totalShows m + 1 := by
  induction m with
  | nil => simp [dayMapAppend, totalShows]
  | cons p rest ih =>
      obtain ⟨k3, vs⟩ := p
      by_cases h3 : k3 = k
      · subst h3
        simp [dayMapAppend, totalShows]
        ring
      · simp [dayMapAppend, totalShows, h3] at ih ⊢
        omega

/-! ## Organizer lemmas -/

/-- Bucket contents of the organizing fold: each bucket collects, behind
the inherited contents, exactly the projections of the input records of
that day, in input order. -/
theorem dayMapGet_foldl_organizeStep (schedules : List AiringSchedule) (m : DayMap) (k : Int) :
    dayMapGet (schedules.foldl organizeStep m) k
      = dayMapGet m k
        ++ (schedules.filter fun r => dayKeyOf r.airingAt == k).map toShowInfo := by
  induction schedules generalizing m with
  | nil => simp
  | cons r rest ih =>
      rw [List.foldl_cons, ih]
      by_cases h : dayKeyOf r.airingAt = k
      · simp [organizeStep, dayMapGet_append, List.filter_cons, h]
      · simp [organizeStep, dayMapGet_append, List.filter_cons, h, Ne.symm h]

/-- Bucket contents of `organizeShowsByDay`: the bucket of `k` is the
subsequence of records of day `k`, projected, in input order. -/
theorem dayMapGet_organizeShowsByDay (schedules : List AiringSchedule) (k : Int) :
    dayMapGet (organizeShowsByDay schedules) k
      = (schedules.filter fun r => dayKeyOf r.airingAt == k).map toShowInfo := by
  have h := dayMapGet_foldl_organizeStep schedules [] k
  simpa [organizeShowsByDay, dayMapGet] using h

/-- The organizing fold preserves distinctness of the key list. -/
theorem nodup_keys_foldl_organizeStep (schedules : List AiringSchedule) (m : DayMap)
    (h : (dayMapKeys m).Nodup) :
    (dayMapKeys (schedules.foldl organizeStep m)).Nodup := by
  induction schedules generalizing m with
  | nil => simpa using h
  | cons r rest ih =>
      rw [List.foldl_cons]
      exact ih _ (nodup_dayMapKeys_append _ _ _ h)

/-- The key list of `organizeShowsByDay` has no duplicates. -/
theorem nodup_keys_organizeShowsByDay (schedules : List AiringSchedule) :
    (dayMapKeys (organizeShowsByDay schedules)).Nodup :=
  nodup_keys_foldl_organizeStep schedules [] (by simp [dayMapKeys])

/-- Key membership across the organizing fold. -/
theorem mem_keys_foldl_organizeStep (schedules : List AiringSchedule) (m : DayMap) (k : Int) :
    k ∈ dayMapKeys (schedules.foldl organizeStep m)
      ↔ k ∈ dayMapKeys m ∨ k ∈ schedules.map fun r => dayKeyOf r.airingAt := by
  induction schedules generalizing m with
  | nil => simp
  | cons r rest ih =>
      rw [List.foldl_cons, ih, organizeStep, mem_dayMapKeys_append]
      simp only [List.map_cons, List.mem_cons]
      tauto

/-- The keys of `organizeShowsByDay` are exactly the day keys of the
input records. -/
theorem mem_keys_organizeShowsByDay (schedules : List AiringSchedule) (k : Int) :
    k ∈ dayMapKeys (organizeShowsByDay schedules)
      ↔ k ∈ schedules.map fun r => dayKeyOf r.airingAt := by
  have h := mem_keys_foldl_organizeStep schedules [] k
  simpa [organizeShowsByDay, dayMapKeys] using h

/-- The organizing fold adds one held show per input record. -/
theorem totalShows_foldl_organizeStep (schedules : List AiringSchedule) (m : DayMap) :
    totalShows (schedules.foldl organizeStep m) = totalShows m + schedules.length := by
  induction schedules generalizing m with
  | nil => simp
  | cons r rest ih =>
      rw [List.foldl_cons, ih, organizeStep, totalShows_append]
      simp only [List.length_cons]
      push_cast
      ring

/-- A map write preserves the bucket-key invariant, provided the new
element is written under the day key of its own airing time. -/
theorem good_buckets_append (m : DayMap) (k : Int) (v : ShowInfo)
    (h : ∀ p ∈ m, ∀ s ∈ p.2, dayKeyOf s.AiringTime = p.1)
    (hv : dayKeyOf v.AiringTime = k) :
    ∀ p ∈ dayMapAppend m k v, ∀ s ∈ p.2, dayKeyOf s.AiringTime = p.1 := by
  induction m with
  | nil =>
      intro p hp s hs
      simp only [dayMapAppend, List.mem_singleton] at hp
      subst hp
      simp only [List.mem_singleton] at hs
      subst hs
      exact hv
  | cons q rest ih =>
      obtain ⟨k3, vs⟩ := q
      intro p hp s hs
      by_cases h3 : k3 = k
      · subst h3
        simp only [dayMapAppend, if_pos, List.mem_cons] at hp
        rcases hp with rfl | hp
        · have hs2 : s ∈ vs ++ [v] := hs
          rw [List.mem_append, List.mem_singleton] at hs2
          rcases hs2 with hs2 | rfl
          · exact h (k3, vs) (List.mem_cons_self _ _) s hs2
          · exact hv
        · exact h p (List.mem_cons_of_mem _ hp) s hs
      · simp only [dayMapAppend, if_neg h3, List.mem_cons] at hp
        rcases hp with rfl | hp
        · exact h (k3, vs) (List.mem_cons_self _ _) s hs
        · exact ih (fun p2 hp2 => h p2 (List.mem_cons_of_mem _ hp2)) p hp s hs

/-- The organizing fold preserves the bucket-key invariant: every held
show sits under the day key of its own airing time. -/
theorem good_buckets_foldl_organizeStep (schedules : List AiringSchedule) (m : DayMap)
    (h : ∀ p ∈ m, ∀ s ∈ p.2, dayKeyOf s.AiringTime = p.1) :
    ∀ p ∈ schedules.foldl organizeStep m, ∀ s ∈ p.2, dayKeyOf s.AiringTime = p.1 := by
  induction schedules generalizing m with
  | nil => simpa using h
  | cons r rest ih =>
      rw [List.foldl_cons]
      exact ih _ (good_buckets_append m _ _ h rfl)

/-! ## Sorting lemmas -/

/-- Descending insertion produces a permutation of consing. -/
theorem insertDayDesc_perm (x : Int) (l : List Int) :
    List.Perm (insertDayDesc x l) (x :: l) := by
  induction l with
  | nil => simp [insertDayDesc]
  | cons y ys ih =>
      by_cases h : x > y
      · simp [insertDayDesc, h]
      · simp only [insertDayDesc, if_neg h]
        exact (List.Perm.cons y ih).trans (List.Perm.swap x y ys)

/-- The descending sort is a permutation of its input. -/
theorem sortDaysDesc_perm (l : List Int) : List.Perm (sortDaysDesc l) l := by
  induction l with
  | nil => simp [sortDaysDesc]
  | cons x xs ih =>
      simp only [sortDaysDesc, List.foldr_cons] at ih ⊢
      exact (insertDayDesc_perm x _).trans (List.Perm.cons x ih)

/-- Descending insertion preserves the weakly descending order. -/
theorem insertDayDesc_pairwise (x : Int) (l : List Int)
    (h : List.Pairwise (· ≥ ·) l) : List.Pairwise (· ≥ ·) (insertDayDesc x l) := by
  induction l with
  | nil => simp [insertDayDesc]
  | cons y ys ih =>
      by_cases hxy : x > y
      · rw [insertDayDesc, if_pos hxy]
        refine List.pairwise_cons.2 ⟨?_, h⟩
        intro b hb
        rcases List.mem_cons.1 hb with rfl | hb
        · exact le_of_lt hxy
        · exact le_trans ((List.pairwise_cons.1 h).1 b hb) (le_of_lt hxy)
      · rw [insertDayDesc, if_neg hxy]
        obtain ⟨hy, hys⟩ := List.pairwise_cons.1 h
        refine List.pairwise_cons.2 ⟨?_, ih hys⟩
        intro b hb
        have hb2 := (insertDayDesc_perm x ys).mem_iff.1 hb
        rcases List.mem_cons.1 hb2 with rfl | hb2
        · exact le_of_not_lt hxy
        · exact hy b hb2

/-- The descending sort is weakly descending. -/
theorem sortDaysDesc_pairwise_ge (l : List Int) :
    List.Pairwise (· ≥ ·) (sortDaysDesc l) := by
  induction l with
  | nil => simp [sortDaysDesc]
  | cons x xs ih => exact insertDayDesc_pairwise x _ ih

/-- On a duplicate-free input the descending sort is strictly
descending. -/
theorem sortDaysDesc_pairwise_gt (l : List Int) (h : l.Nodup) :
    List.Pairwise (· > ·) (sortDaysDesc l) := by
  have hnd : (sortDaysDesc l).Nodup := (sortDaysDesc_perm l).nodup_iff.2 h
  have hge := sortDaysDesc_pairwise_ge l
  exact (hge.and hnd).imp fun hab => lt_of_le_of_ne hab.1 (Ne.symm hab.2)

/-- Two strictly descending lists that are permutations of each other
are equal. -/
theorem eq_of_perm_of_pairwise_gt (l1 l2 : List Int)
    (hp : List.Perm l1 l2)
    (h1 : List.Pairwise (· > ·) l1) (h2 : List.Pairwise (· > ·) l2) : l1 = l2 := by
  haveI : IsAntisymm Int (· > ·) := ⟨fun a b hab hba => absurd hab (lt_asymm hba)⟩
  exact List.eq_of_perm_of_sorted hp h1 h2

/-- The descending sort depends only on the set of keys: sorting any
permutation of a duplicate-free list gives the same output. -/
theorem sortDaysDesc_perm_invariant (l1 l2 : List Int)
    (h : List.Perm l1 l2) (hnd : l2.Nodup) : sortDaysDesc l1 = sortDaysDesc l2 := by
  have hnd1 : l1.Nodup := h.nodup_iff.2 hnd
  exact eq_of_perm_of_pairwise_gt _ _
    (((sortDaysDesc_perm l1).trans h).trans (sortDaysDesc_perm l2).symm)
    (sortDaysDesc_pairwise_gt l1 hnd1) (sortDaysDesc_pairwise_gt l2 hnd)

/-! ## Counting lemmas -/

/-- With distinct keys, summing the bucket sizes over the key list gives
the total number of held shows. -/
theorem sum_bucket_sizes (m : DayMap) (hnd : (dayMapKeys m).Nodup) :
    (((dayMapKeys m).map fun k => ((dayMapGet m k).length : Int))).sum = totalShows m := by
  induction m with
  | nil => simp [dayMapKeys, totalShows]
  | cons p rest ih =>
      obtain ⟨k3, vs⟩ := p
      have hnd2 : (dayMapKeys rest).Nodup :=
        (List.nodup_cons.1 (by simpa [dayMapKeys] using hnd)).2
      have hk3 : k3 ∉ dayMapKeys rest :=
        (List.nodup_cons.1 (by simpa [dayMapKeys] using hnd)).1
      have hcongr : ((dayMapKeys rest).map fun k => ((dayMapGet ((k3, vs) :: rest) k).length : Int))
          = (dayMapKeys rest).map fun k => ((dayMapGet rest k).length : Int) := by
        refine List.map_congr_left ?_
        intro a ha
        have hne : a ≠ k3 := fun heq => hk3 (heq ▸ ha)
        simp [dayMapGet, hne]
      simp only [dayMapKeys, List.map_cons, List.sum_cons, totalShows] at ih hcongr ⊢
      rw [show dayMapGet ((k3, vs) :: rest) k3 = vs from by simp [dayMapGet]]
      rw [hcongr]
      rw [ih hnd2]

/-! ## Sample data used by witnesses -/

/-- A sample decoded record airing 2024-05-01 13:24:05 UTC. -/
def sampleRecord : AiringSchedule :=
  { episode := 5
    airingAt := 1714569845
    media := { title := { romaji := "Foo", english := "Bar" }, averageScore := 80 } }

/-- A sample record whose primary (English) title is empty. -/
def emptyEnglishRecord : AiringSchedule :=
  { episode := 1
    airingAt := 1714569845
    media := { title := { romaji := "Foo", english := "" }, averageScore := 0 } }

/-- A sample record with both titles present. -/
def barBazRecord : AiringSchedule :=
  { episode := 2
    airingAt := 1714569845
    media := { title := { romaji := "Baz", english := "Bar" }, averageScore := 40 } }

/-! ## Claim theorems -/

/-- C1: for every record list, every `ShowInfo` produced by
`organizeShowsByDay` is placed in exactly one day bucket (the key list
is duplicate-free and two buckets holding a common show coincide), and
that bucket's key equals the day key of the show's airing time, i.e.
its airing time truncated to midnight UTC. -/
theorem organize_places_each_show_in_its_day_bucket (schedules : List AiringSchedule) :
    (dayMapKeys (organizeShowsByDay schedules)).Nodup
    ∧ (∀ p ∈ organizeShowsByDay schedules, ∀ s ∈ p.2, dayKeyOf s.AiringTime = p.1)
    ∧ ∀ p ∈ organizeShowsByDay schedules, ∀ q ∈ organizeShowsByDay schedules,
        ∀ s : ShowInfo, s ∈ p.2 → s ∈ q.2 → p = q := by
  have hnd := nodup_keys_organizeShowsByDay schedules
  have hgood := good_buckets_foldl_organizeStep schedules [] (by simp)
  refine ⟨hnd, hgood, ?_⟩
  intro p hp q hq s hsp hsq
  exact dayMap_pair_eq_of_key_eq _ p q hnd hp hq
    (((hgood p hp s hsp).symm).trans (hgood q hq s hsq))

/-- Witness for C1: the sample record airs at epoch second 1714569845;
its bucket in the organized map is keyed 1714521600, the 2024-05-01
midnight, which is the day key of the stored airing time. -/
theorem organize_places_each_show_in_its_day_bucket_witness :
    dayKeyOf (toShowInfo sampleRecord).AiringTime = 1714521600 :=
  (organize_places_each_show_in_its_day_bucket [sampleRecord]).2.1
    (1714521600, [toShowInfo sampleRecord]) (by decide)
    (toShowInfo sampleRecord) (by decide)

/-- Title resolution as the specification words it: prefer the primary
(localized, English) title when it is non-empty, otherwise use the
fallback (romanized, Romaji) title. -/
def specResolvedTitle (r : AiringSchedule) : String :=
  if r.media.title.english ≠ "" then r.media.title.english else r.media.title.romaji

/-- C2: the resolved title of the `ShowInfo` the organizer produces for
a record agrees with the spec-side resolution rule, the organizer stores
exactly that projection, and the two concrete examples of the spec
resolve as stated. -/
theorem organizer_title_resolution (r : AiringSchedule) :
    (toShowInfo r).Title = specResolvedTitle r
    ∧ organizeShowsByDay [r] = [(dayKeyOf r.airingAt, [toShowInfo r])]
    ∧ (toShowInfo emptyEnglishRecord).Title = "Foo"
    ∧ (toShowInfo barBazRecord).Title = "Bar" := by
  refine ⟨?_, rfl, rfl, rfl⟩
  by_cases h : r.media.title.english = "" <;> simp [toShowInfo, specResolvedTitle, h]

/-- C3: for scores in 0..100, the rendered line carries the strong
marker exactly when the score exceeds 75, the unscored marker exactly
when it is zero, and the default marker otherwise; the score suffix is
the decimal score over 100 when positive and the no-rating label (never
a zero fraction) when the score is zero; and the rendered show line is
built from exactly these two pieces. -/
theorem render_score_tiers (score : Int) (h0 : 0 ≤ score) (h100 : score ≤ 100) :
    (emojiFor score = "🌟" ↔ 75 < score)
    ∧ (emojiFor score = "📡" ↔ score = 0)
    ∧ (score ≤ 75 → score ≠ 0 → emojiFor score = "✨")
    ∧ (0 < score → renderScore score = "★ " ++ toString score ++ "/100")
    ∧ (score = 0 → renderScore score = "★ No rating")
    ∧ (score = 0 → renderScore score ≠ "★ 0/100")
    ∧ ∀ info : ShowInfo, info.AverageScore = score →
        renderShowLine info
          = emojiFor score ++ " " ++ info.Title ++ " • " ++
              "Ep " ++ toString info.EpisodeNumber ++
              " 🕒 " ++ formatClock12 info.AiringTime ++ renderScore score := by
  refine ⟨?_, ?_, ?_, ?_, ?_, ?_, ?_⟩
  · constructor
    · intro h
      by_contra hc
      push_neg at hc
      by_cases hz : score = 0
      · rw [emojiFor, if_neg (by omega), if_pos hz] at h
        exact absurd h (by decide)
      · rw [emojiFor, if_neg (by omega), if_neg hz] at h
        exact absurd h (by decide)
    · intro h
      rw [emojiFor, if_pos h]
  · constructor
    · intro h
      by_contra hz
      by_cases h75 : score > 75
      · rw [emojiFor, if_pos h75] at h
        exact absurd h (by decide)
      · rw [emojiFor, if_neg h75, if_neg hz] at h
        exact absurd h (by decide)
    · intro hz
      rw [emojiFor, if_neg (by omega), if_pos hz]
  · intro h75 hz
    rw [emojiFor, if_neg (by omega), if_neg hz]
  · intro hpos
    rw [renderScore, if_pos hpos]
  · intro hz
    rw [renderScore, if_neg (by omega)]
  · intro hz
    rw [renderScore, if_neg (by omega)]
    decide
  · intro info hinfo
    rw [renderShowLine, hinfo]

/-- Witness for C3: score 76 earns the strong marker, score 75 and
score 40 take the default marker, score 40 renders as 40 over 100, and
score 0 renders the no-rating label. -/
theorem render_score_tiers_witness :
    emojiFor 76 = "🌟" ∧ emojiFor 75 = "✨" ∧ emojiFor 40 = "✨"
    ∧ renderScore 40 = "★ 40/100" ∧ renderScore 0 = "★ No rating" :=
  ⟨(render_score_tiers 76 (by decide) (by decide)).1.mpr (by decide),
   (render_score_tiers 75 (by decide) (by decide)).2.2.1 (by decide) (by decide),
   (render_score_tiers 40 (by decide) (by decide)).2.2.1 (by decide) (by decide),
   ((render_score_tiers 40 (by decide) (by decide)).2.2.2.1 (by decide)).trans (by decide),
   (render_score_tiers 0 (by decide) (by decide)).2.2.2.2.1 rfl⟩

/-- C10: on a negative average score the two score branches disagree:
the suffix takes the no-rating branch (its guard is score strictly
positive) while the marker takes the default branch, not the unscored
one (its guard is score exactly zero), and the rendered line carries
both choices. -/
theorem negative_score_branches (score : Int) (h : score < 0) :
    renderScore score = "★ No rating"
    ∧ emojiFor score = "✨"
    ∧ emojiFor score ≠ "📡"
    ∧ ∀ info : ShowInfo, info.AverageScore = score →
        renderShowLine info
          = "✨" ++ " " ++ info.Title ++ " • " ++
              "Ep " ++ toString info.EpisodeNumber ++
              " 🕒 " ++ formatClock12 info.AiringTime ++ "★ No rating" := by
  have hemoji : emojiFor score = "✨" := by
    rw [emojiFor, if_neg (by omega), if_neg (by omega)]
  have hscore : renderScore score = "★ No rating" := by
    rw [renderScore, if_neg (by omega)]
  refine ⟨hscore, hemoji, by rw [hemoji]; decide, ?_⟩
  intro info hinfo
  rw [renderShowLine, hinfo, hemoji, hscore]

/-- Witness for C10: score -5 renders the no-rating label with the
default marker. -/
theorem negative_score_branches_witness :
    renderScore (-5) = "★ No rating" ∧ emojiFor (-5) = "✨" :=
  ⟨(negative_score_branches (-5) (by decide)).1,
   (negative_score_branches (-5) (by decide)).2.1⟩

/-- C4: the renderer emits day sections in strictly descending key
order, those keys are exactly the keys of the mapping, and the emitted
order is independent of the enumeration order of the mapping. -/
theorem renderer_day_order (m : DayMap) (h : (dayMapKeys m).Nodup) :
    List.Pairwise (· > ·) ((renderSections m).map DaySection.day)
    ∧ List.Perm ((renderSections m).map DaySection.day) (dayMapKeys m)
    ∧ ∀ m2 : DayMap, List.Perm (dayMapKeys m2) (dayMapKeys m) →
        (renderSections m2).map DaySection.day = (renderSections m).map DaySection.day := by
  have hdays : ∀ mm : DayMap,
      (renderSections mm).map DaySection.day = sortDaysDesc (dayMapKeys mm) := by
    intro mm
    have hcomp : (DaySection.day ∘ renderDaySection mm) = id := rfl
    simp [renderSections, List.map_map, hcomp]
  refine ⟨?_, ?_, ?_⟩
  · rw [hdays]
    exact sortDaysDesc_pairwise_gt _ h
  · rw [hdays]
    exact sortDaysDesc_perm _
  · intro m2 hperm
    rw [hdays, hdays]
    exact sortDaysDesc_perm_invariant _ _ hperm h

/-- A mapping with buckets for 2024-05-01, 2024-05-03 and 2024-05-02,
in that enumeration order. -/
def exampleMap : DayMap :=
  [(1714521600, []), (1714694400, []), (1714608000, [])]

/-- Witness for C4: the buckets for 2024-05-01, 2024-05-03 and
2024-05-02 render in the order 05-03, 05-02, 05-01, which is strictly
descending. -/
theorem renderer_day_order_witness :
    (renderSections exampleMap).map DaySection.day = [1714694400, 1714608000, 1714521600]
    ∧ List.Pairwise (· > ·) ((renderSections exampleMap).map DaySection.day) :=
  ⟨by decide, (renderer_day_order exampleMap (by decide)).1⟩

/-- C5: each day bucket of the organized map holds exactly the
projections of the input records of that day, in input order, and the
renderer emits each bucket in that same order with no re-sort. -/
theorem within_day_insertion_order (schedules : List AiringSchedule) (k : Int) :
    dayMapGet (organizeShowsByDay schedules) k
      = (schedules.filter fun r => dayKeyOf r.airingAt == k).map toShowInfo
    ∧ ∀ sec ∈ renderSections (organizeShowsByDay schedules),
        sec.showLines
          = ((schedules.filter fun r => dayKeyOf r.airingAt == sec.day).map toShowInfo).map
              renderShowLine := by
  refine ⟨dayMapGet_organizeShowsByDay schedules k, ?_⟩
  intro sec hsec
  simp only [renderSections, List.mem_map] at hsec
  obtain ⟨day, hday, rfl⟩ := hsec
  show (dayMapGet (organizeShowsByDay schedules) day).map renderShowLine
      = ((schedules.filter fun r => dayKeyOf r.airingAt == day).map toShowInfo).map renderShowLine
  rw [dayMapGet_organizeShowsByDay]

/-- First of three same-day records, latest airing time. -/
def sameDayRecord1 : AiringSchedule :=
  { episode := 12
    airingAt := 1714599845
    media := { title := { romaji := "A", english := "A1" }, averageScore := 80 } }

/-- Second of three same-day records, middle airing time. -/
def sameDayRecord2 : AiringSchedule :=
  { episode := 7
    airingAt := 1714569845
    media := { title := { romaji := "B", english := "B1" }, averageScore := 0 } }

/-- Third of three same-day records, earliest airing time. -/
def sameDayRecord3 : AiringSchedule :=
  { episode := 3
    airingAt := 1714531845
    media := { title := { romaji := "C", english := "" }, averageScore := 64 } }

/-- Witness for C5: three records of 2024-05-01 arriving in descending
time order occupy their bucket, and are rendered, in exactly that
order. -/
theorem within_day_insertion_order_witness :
    dayMapGet (organizeShowsByDay [sameDayRecord1, sameDayRecord2, sameDayRecord3]) 1714521600
      = [toShowInfo sameDayRecord1, toShowInfo sameDayRecord2, toShowInfo sameDayRecord3]
    ∧ (renderDaySection (organizeShowsByDay [sameDayRecord1, sameDayRecord2, sameDayRecord3])
          1714521600).showLines
      = [renderShowLine (toShowInfo sameDayRecord1),
         renderShowLine (toShowInfo sameDayRecord2),
         renderShowLine (toShowInfo sameDayRecord3)] :=
  ⟨((within_day_insertion_order [sameDayRecord1, sameDayRecord2, sameDayRecord3]
      1714521600).1).trans (by decide),
   ((within_day_insertion_order [sameDayRecord1, sameDayRecord2, sameDayRecord3] 1714521600).2
      (renderDaySection (organizeShowsByDay [sameDayRecord1, sameDayRecord2, sameDayRecord3])
        1714521600)
      (by decide)).trans (by decide)⟩

/-- C6: organizing an empty record list yields the empty mapping, and
whenever the organized mapping is empty the driver prints the fixed
no-episodes message and never produces a report. -/
theorem empty_mapping_no_episodes (response : GraphQLResponse)
    (h : organizeShowsByDay response.data.page.airingSchedules = []) :
    organizeShowsByDay ([] : List AiringSchedule) = ([] : DayMap)
    ∧ runAniweek (.ok response) = .noEpisodes (appRender noEpisodesMessage)
    ∧ ∀ t, runAniweek (.ok response) ≠ .report t := by
  refine ⟨rfl, ?_, ?_⟩
  · simp [runAniweek, h]
  · intro t
    simp [runAniweek, h]

/-- A decoded response containing no airing records. -/
def emptyResponse : GraphQLResponse :=
  { data := { page := { airingSchedules := [] } } }

/-- Witness for C6: on the empty response the driver prints the fixed
no-episodes message. -/
theorem empty_mapping_no_episodes_witness :
    runAniweek (FetchOutcome.ok emptyResponse) = RunResult.noEpisodes (appRender noEpisodesMessage) :=
  (empty_mapping_no_episodes emptyResponse rfl).2.1

/-- C7: a decoded response with N records over K distinct UTC days
renders as exactly K day sections carrying exactly N show lines in
total. -/
theorem report_counts (response : GraphQLResponse) :
    (renderSections (organizeShowsByDay response.data.page.airingSchedules)).length
      = ((response.data.page.airingSchedules.map fun r => dayKeyOf r.airingAt).dedup).length
    ∧ ((renderSections (organizeShowsByDay response.data.page.airingSchedules)).map
          fun sec => sec.showLines.length).sum
      = response.data.page.airingSchedules.length := by
  set schedules := response.data.page.airingSchedules with hs
  set m := organizeShowsByDay schedules with hm
  have hnd : (dayMapKeys m).Nodup := nodup_keys_organizeShowsByDay schedules
  constructor
  · have h1 : (renderSections m).length = (sortDaysDesc (dayMapKeys m)).length := by
      simp [renderSections]
    have h2 : (sortDaysDesc (dayMapKeys m)).length = (dayMapKeys m).length :=
      (sortDaysDesc_perm _).length_eq
    have h3 : List.Perm (dayMapKeys m) ((schedules.map fun r => dayKeyOf r.airingAt).dedup) := by
      refine (List.perm_ext_iff_of_nodup hnd (List.nodup_dedup _)).2 ?_
      intro a
      rw [List.mem_dedup, hm, mem_keys_organizeShowsByDay]
    rw [h1, h2, h3.length_eq]
  · have hint : ((renderSections m).map fun sec => ((sec.showLines.length : Int))).sum
        = (schedules.length : Int) := by
      have h4 : ((renderSections m).map fun sec => ((sec.showLines.length : Int)))
          = (sortDaysDesc (dayMapKeys m)).map fun k => ((dayMapGet m k).length : Int) := by
        simp [renderSections, List.map_map, renderDaySection, Function.comp]
      have h5 := (sortDaysDesc_perm (dayMapKeys m)).map fun k => ((dayMapGet m k).length : Int)
      rw [h4, h5.sum_eq, sum_bucket_sizes m hnd, hm]
      show totalShows (schedules.foldl organizeStep []) = (schedules.length : Int)
      rw [totalShows_foldl_organizeStep]
      simp [totalShows]
    have hcast : ((((renderSections m).map fun sec => sec.showLines.length).sum : Nat) : Int)
        = ((schedules.length : Nat) : Int) := by
      rw [Nat.cast_list_sum, List.map_map]
      exact hint
    exact_mod_cast hcast

/-- C8: the query string interpolates exactly the epoch second of seven
days before now as the strict lower bound and of now as the strict upper
bound, into a fixed template that requests at most 100 airing-schedule
entries sorted descending by time and selects the episode number, airing
timestamp, both titles, and average score. -/
theorem query_window_bounds (nowUnix : Int) :
    buildQuery nowUnix
      = qPart1 ++ toString (nowUnix - 7 * 86400) ++ qPart2 ++ toString nowUnix ++ qPart3
    ∧ containsSubstr qPart1 "Page(perPage: 100)" = true
    ∧ containsSubstr qPart1 "airingAt_greater: " = true
    ∧ containsSubstr qPart2 "airingAt_lesser: " = true
    ∧ containsSubstr qPart3 "sort: TIME_DESC" = true
    ∧ containsSubstr qPart3 "episode" = true
    ∧ containsSubstr qPart3 "airingAt" = true
    ∧ containsSubstr qPart3 "romaji" = true
    ∧ containsSubstr qPart3 "english" = true
    ∧ containsSubstr qPart3 "averageScore" = true := by
  refine ⟨?_, by decide, by decide, by decide, by decide, by decide, by decide, by decide,
    by decide, by decide⟩
  have h : addDateDays nowUnix (-7) = nowUnix - 7 * 86400 := by
    rw [addDateDays]
    ring
  rw [buildQuery, h]

/-- C9: on each of the four error categories the driver reports the
matching context label joined to the underlying cause and stops without
any report output, partial or otherwise. -/
theorem error_paths_terminal (outcome : FetchOutcome) (h : isErrorOutcome outcome = true) :
    (∃ context cause,
        runAniweek outcome = .errorReport (printErrorText context cause)
        ∧ (context = "Error creating request" ∨ context = "Error making request"
            ∨ context = "Error reading response" ∨ context = "Error parsing response"))
    ∧ (∀ t, runAniweek outcome ≠ .report t)
    ∧ (∀ s, runAniweek outcome ≠ .noEpisodes s)
    ∧ (∀ c, runAniweek (.marshalFailure c)
        = .errorReport (printErrorText "Error creating request" c))
    ∧ (∀ c, runAniweek (.transportFailure c)
        = .errorReport (printErrorText "Error making request" c))
    ∧ (∀ c, runAniweek (.readFailure c)
        = .errorReport (printErrorText "Error reading response" c))
    ∧ ∀ c, runAniweek (.decodeFailure c)
        = .errorReport (printErrorText "Error parsing response" c) := by
  refine ⟨?_, ?_, ?_, fun c => rfl, fun c => rfl, fun c => rfl, fun c => rfl⟩
  · cases outcome with
    | marshalFailure cause => exact ⟨"Error creating request", cause, rfl, Or.inl rfl⟩
    | transportFailure cause => exact ⟨"Error making request", cause, rfl, Or.inr (Or.inl rfl)⟩
    | readFailure cause =>
        exact ⟨"Error reading response", cause, rfl, Or.inr (Or.inr (Or.inl rfl))⟩
    | decodeFailure cause =>
        exact ⟨"Error parsing response", cause, rfl, Or.inr (Or.inr (Or.inr rfl))⟩
    | ok response => simp [isErrorOutcome] at h
  · intro t
    cases outcome
    case ok response => simp [isErrorOutcome] at h
    all_goals simp [runAniweek]
  · intro s
    cases outcome
    case ok response => simp [isErrorOutcome] at h
    all_goals simp [runAniweek]

/-- Witness for C9: a transport failure produces a labelled error
report and no rendered report. -/
theorem error_paths_terminal_witness :
    (∃ context cause,
        runAniweek (FetchOutcome.transportFailure "connection refused")
          = RunResult.errorReport (printErrorText context cause)
        ∧ (context = "Error creating request" ∨ context = "Error making request"
            ∨ context = "Error reading response" ∨ context = "Error parsing response"))
    ∧ runAniweek (FetchOutcome.transportFailure "connection refused") ≠ RunResult.report "" :=
  ⟨(error_paths_terminal (FetchOutcome.transportFailure "connection refused") rfl).1,
   (error_paths_terminal (FetchOutcome.transportFailure "connection refused") rfl).2.1 ""⟩
